import Mathlib

/-!
Verification of the wootrico reconciliation engine against its specification.

The JavaScript sources are shallowly embedded: JS `Map`s and plain objects
become association lists over `String` keys (JS `Map` and object keys are
unique and iteration follows insertion order, which the `alistSet`-based
update preserves), mutation becomes explicit state passing, numeric
counters become `Int` (JS numbers; the code only ever stores integers),
and JS `null`/`undefined`/`''` falsiness is modelled with `Option` or with
the empty string, as noted at each definition.  Fallible code returns
`Except`.  The file is organised as definitions first, then theorems.
-/

set_option autoImplicit false
set_option maxRecDepth 8192

deriving instance DecidableEq for Except

namespace Wootrico

/-! ## Association list toolkit

Models a JS `Map` (or a plain object used as a dictionary): lookup finds
the first entry for a key, `alistSet` updates in place or appends
(mirroring `map.set` / `obj[k] = v`), and `alistDelete` removes the entry
(mirroring `map.delete` / key removal). -/

def alistGet {α : Type} (l : List (String × α)) (k : String) : Option α :=
  match l with
  | [] => none
  | (k', v) :: rest => if k' = k then some v else alistGet rest k

def alistSet {α : Type} (l : List (String × α)) (k : String) (v : α) : List (String × α) :=
  match l with
  | [] => [(k, v)]
  | (k', v') :: rest => if k' = k then (k, v) :: rest else (k', v') :: alistSet rest k v

def alistDelete {α : Type} (l : List (String × α)) (k : String) : List (String × α) :=
  match l with
  | [] => []
  | (k', v') :: rest => if k' = k then alistDelete rest k else (k', v') :: alistDelete rest k

def alistKeys {α : Type} (l : List (String × α)) : List String :=
  l.map (fun e => e.1)

/-- JS `a || b` on strings, where only `''` is falsy. -/
def jsOr (a b : String) : String := if a = "" then b else a

/-- JS `x ? String(x) : null` / `x || null` on an optional string: collapses
the empty string to `none`. -/
def truthyStr (o : Option String) : Option String :=
  match o with
  | some s => if s = "" then none else some s
  | none => none

/-- JS `s.startsWith(pre)`, on the character lists. -/
def strStartsWith (s pre : String) : Bool := pre.data.isPrefixOf s.data

/-- JS `s.endsWith(post)`, on the character lists. -/
def strEndsWith (s post : String) : Bool := post.data.isSuffixOf s.data

/-! ## Phone utilities (src/src/utils/phone.js) -/

/-- COUNTRY_CODES (phone.js lines 4-72), in source order. -/
def COUNTRY_CODES : List (String × String) :=
  [("BR", "55"), ("US", "1"), ("CA", "1"), ("MX", "52"), ("AR", "54"),
   ("CL", "56"), ("CO", "57"), ("PE", "51"), ("VE", "58"), ("UY", "598"),
   ("PY", "595"), ("BO", "591"), ("EC", "593"), ("GY", "592"), ("SR", "597"),
   ("PT", "351"), ("ES", "34"), ("FR", "33"), ("DE", "49"), ("IT", "39"),
   ("GB", "44"), ("AU", "61"), ("NZ", "64"), ("JP", "81"), ("CN", "86"),
   ("IN", "91"), ("RU", "7"), ("ZA", "27"), ("EG", "20"), ("NG", "234"),
   ("KE", "254"), ("MA", "212"), ("DZ", "213"), ("TN", "216"), ("LY", "218"),
   ("SD", "249"), ("ET", "251"), ("SO", "252"), ("DJ", "253"), ("SS", "211"),
   ("CF", "236"), ("CM", "237"), ("TD", "235"), ("GA", "241"), ("CG", "242"),
   ("CD", "243"), ("AO", "244"), ("GW", "245"), ("IO", "246"), ("AC", "247"),
   ("SC", "248"), ("ST", "250"), ("GQ", "240"), ("GM", "220"), ("GN", "224"),
   ("SL", "232"), ("LR", "231"), ("CI", "225"), ("GH", "233"), ("TG", "228"),
   ("BJ", "229"), ("BF", "226"), ("ML", "223"), ("NE", "227"), ("SN", "221"),
   ("MR", "222"), ("CV", "238")]

/-- extractDigits (phone.js lines 155-158) and the inline
`replace(/\D/g, '')` used throughout: keep only the digit characters. -/
def extractDigits (s : String) : String := String.mk (s.data.filter Char.isDigit)

/-- JS `toUpperCase`, on the character list. -/
def strToUpper (s : String) : String := String.mk (s.data.map Char.toUpper)

/-- normalizeToE164 (phone.js lines 80-112).  The empty string models a JS
falsy phone, for which the source returns null.  The country-code loop
returns on the first known code that prefixes the cleaned number. -/
def normalizeToE164 (phone : String) (defaultCountry : String) : Option String :=
  if phone = "" then none
  else
    let cleanPhone := extractDigits phone
    if strStartsWith phone "+" then some phone
    else if strStartsWith cleanPhone "00" then
      some ("+" ++ String.mk (cleanPhone.data.drop 2))
    else
      match COUNTRY_CODES.find? (fun kv => strStartsWith cleanPhone kv.2) with
      | some _ => some ("+" ++ cleanPhone)
      | none =>
        match alistGet COUNTRY_CODES (strToUpper defaultCountry) with
        | some defaultCode => some ("+" ++ defaultCode ++ cleanPhone)
        | none => some ("+" ++ cleanPhone)

/-- isValidE164 (phone.js lines 142-148) and the inline regex
`^\+[1-9]\d\x7b1,14\x7d$` of chatwoot.js: a leading plus, a first digit in
1-9, then one to fourteen more digits. -/
def isValidE164 (phone : String) : Bool :=
  match phone.data with
  | c₀ :: first :: rest =>
    decide (c₀ = '+') && decide ('1' ≤ first) && decide (first ≤ '9') &&
      decide (1 ≤ rest.length) && decide (rest.length ≤ 14) && rest.all Char.isDigit
  | _ => false

/-! ## Credit ledger (src/src/nats/natsClient.js, ticket system)

`messageTickets` (the provider echo map) and `messageTicketsChatwoot` (the
helpdesk echo map) are JS `Map`s from phone to a plain object from
message type to a counter. -/

/-- Ticket object for one phone: JS object of shape `messageType: ticketCount`. -/
abbrev TicketObj : Type := List (String × Int)

/-- A ticket map: JS `Map` from phone to ticket object. -/
abbrev TicketMap : Type := List (String × TicketObj)

/-- The counter currently associated with `(phone, messageType)`; an absent
phone or kind reads as `0` (mirroring `phoneTickets[messageType] || 0`). -/
def ticketCount (m : TicketMap) (phone messageType : String) : Int :=
  match alistGet m phone with
  | none => 0
  | some obj => (alistGet obj messageType).getD 0

/-- addOutgoingTicket (natsClient.js lines 98-107): ensure the phone entry
exists, then increment the kind counter via
`phoneTickets[messageType] = (phoneTickets[messageType] || 0) + 1`. -/
def addOutgoingTicket (m : TicketMap) (phone messageType : String) : TicketMap :=
  let obj := (alistGet m phone).getD []
  alistSet m phone (alistSet obj messageType ((alistGet obj messageType).getD 0 + 1))

/-- consumeOutgoingTicket (natsClient.js lines 115-139): returns whether a
ticket was available (and consumed), together with the updated map.  After a
decrement, if no kind of the phone is positive any more the phone key is
deleted. -/
def consumeOutgoingTicket (m : TicketMap) (phone messageType : String) : Bool × TicketMap :=
  match alistGet m phone with
  | none => (false, m)
  | some obj =>
    let currentTickets := (alistGet obj messageType).getD 0
    if 0 < currentTickets then
      let obj' := alistSet obj messageType (currentTickets - 1)
      let hasAnyTickets := obj'.any (fun e => 0 < e.2)
      (true, if hasAnyTickets then alistSet m phone obj' else alistDelete m phone)
    else
      (false, m)

/-- addOutgoingTicketChatwoot (natsClient.js lines 147-156): identical
state update to `addOutgoingTicket`, on the helpdesk echo map. -/
def addOutgoingTicketChatwoot (m : TicketMap) (phone messageType : String) : TicketMap :=
  let obj := (alistGet m phone).getD []
  alistSet m phone (alistSet obj messageType ((alistGet obj messageType).getD 0 + 1))

/-- consumeOutgoingTicketChatwoot (natsClient.js lines 164-188): same state
update as `consumeOutgoingTicket`, but the returned Boolean is inverted: it
returns `true` (the sentinel) when the phone key or the counter is absent,
and `false` when a ticket existed and was consumed. -/
def consumeOutgoingTicketChatwoot (m : TicketMap) (phone messageType : String) : Bool × TicketMap :=
  match alistGet m phone with
  | none => (true, m)
  | some obj =>
    let currentTickets := (alistGet obj messageType).getD 0
    if 0 < currentTickets then
      let obj' := alistSet obj messageType (currentTickets - 1)
      let hasAnyTickets := obj'.any (fun e => 0 < e.2)
      (false, if hasAnyTickets then alistSet m phone obj' else alistDelete m phone)
    else
      (true, m)

/-- A credit-ledger operation, for stating reachability of ledger states. -/
inductive TicketOp where
  | add (phone messageType : String)
  | consume (phone messageType : String)
deriving DecidableEq

def ticketStep (m : TicketMap) : TicketOp → TicketMap
  | .add p k => addOutgoingTicket m p k
  | .consume p k => (consumeOutgoingTicket m p k).2

/-- The provider echo map after a sequence of add/consume operations,
starting from the empty map the module initialises. -/
def runTickets (ops : List TicketOp) : TicketMap := ops.foldl ticketStep []

def ticketStepChatwoot (m : TicketMap) : TicketOp → TicketMap
  | .add p k => addOutgoingTicketChatwoot m p k
  | .consume p k => (consumeOutgoingTicketChatwoot m p k).2

/-- The helpdesk echo map after a sequence of add/consume operations. -/
def runTicketsChatwoot (ops : List TicketOp) : TicketMap := ops.foldl ticketStepChatwoot []

/-- Structural invariant of a ticket map: unique keys at both levels,
non-negative counters, and every present phone has some positive kind. -/
def LedgerInv (m : TicketMap) : Prop :=
  (alistKeys m).Nodup ∧
  ∀ p obj, alistGet m p = some obj →
    (alistKeys obj).Nodup ∧
    (∀ k c, alistGet obj k = some c → 0 ≤ c) ∧
    (∃ e ∈ obj, 0 < e.2)

/-! ## Message-id mapping cache (src/src/nats/natsClient.js lines 213-289) -/

structure CacheEntry where
  apiMessageId : String
  conversationId : Option String
  inboxId : Option String
  provider : Option String
  integrationId : Option String
deriving DecidableEq

/-- `messageIdCache`: JS `Map` from Chatwoot message id to entry. -/
abbrev MessageIdCache : Type := List (String × CacheEntry)

/-- storeMessageIdMapping (natsClient.js lines 213-224).  Ids are strings
(`String(...)` coercions in the source); the optional arguments go through
JS truthiness before storage. -/
def storeMessageIdMapping (cache : MessageIdCache) (chatwootMessageId apiMessageId : String)
    (conversationId inboxId provider integrationId : Option String) : MessageIdCache :=
  alistSet cache chatwootMessageId
    { apiMessageId := apiMessageId,
      conversationId := truthyStr conversationId,
      inboxId := truthyStr inboxId,
      provider := truthyStr provider,
      integrationId := truthyStr integrationId }

/-- getApiMessageId (natsClient.js lines 231-240): returns
`entry?.apiMessageId || null`, so a falsy (empty) stored id also reads as
null. -/
def getApiMessageId (cache : MessageIdCache) (chatwootMessageId : String) : Option String :=
  match alistGet cache chatwootMessageId with
  | none => none
  | some entry => if entry.apiMessageId = "" then none else some entry.apiMessageId

/-- getChatwootMessageId (natsClient.js lines 242-251): linear scan in
insertion order for the first entry whose apiMessageId matches; returns its
key. -/
def getChatwootMessageId (cache : MessageIdCache) (apiMessageId : String) : Option String :=
  match cache.find? (fun kv => kv.2.apiMessageId == apiMessageId) with
  | some kv => some kv.1
  | none => none

/-- removeMessageIdMapping (natsClient.js lines 257-262). -/
def removeMessageIdMapping (cache : MessageIdCache) (chatwootMessageId : String) : MessageIdCache :=
  alistDelete cache chatwootMessageId

/-- A mapping-cache operation, for stating reachability of cache states. -/
inductive CacheOp where
  | store (chatwootMessageId apiMessageId : String)
      (conversationId inboxId provider integrationId : Option String)
  | remove (chatwootMessageId : String)
deriving DecidableEq

def cacheStep (c : MessageIdCache) : CacheOp → MessageIdCache
  | .store h p conv inbox prov integ => storeMessageIdMapping c h p conv inbox prov integ
  | .remove h => removeMessageIdMapping c h

/-- The cache after a sequence of store/remove operations, starting from the
empty map the module initialises. -/
def runCache (ops : List CacheOp) : MessageIdCache := ops.foldl cacheStep []

/-- The Chatwoot message id an operation is keyed on. -/
def cacheOpKey : CacheOp → String
  | .store h _ _ _ _ _ => h
  | .remove h => h

/-! ## Periodic eviction (natsClient.js lines 296-309) -/

/-- The module-level mutable state touched by the eviction timer. -/
structure LedgerState where
  messageTickets : TicketMap
  messageTicketsChatwoot : TicketMap
  messageIdCache : MessageIdCache
deriving DecidableEq

/-- One firing of the cleanupOldTickets timer body: clears `messageTickets`
and `messageIdCache`.  The `messageTicketsChatwoot.clear()` line is
commented out in the source, so the helpdesk echo map is left untouched. -/
def cleanupOldTicketsFire (s : LedgerState) : LedgerState :=
  { messageTickets := [],
    messageTicketsChatwoot := s.messageTicketsChatwoot,
    messageIdCache := [] }

/-- The timer period, `60 * 60 * 5000` milliseconds in the source. -/
def cleanupIntervalMs : Nat := 60 * 60 * 5000

/-! ## Message kind from a helpdesk callback (natsClient.js lines 74-91) -/

/-- A Chatwoot callback attachment; only `file_type` drives the kind, the
data URL is carried along as payload. -/
structure ChatwootAttachment where
  file_type : String
  data_url : String
deriving DecidableEq

/-- getMessageType (natsClient.js lines 74-91): switch on the first
attachment's file_type; `content` is accepted but never consulted. -/
def getMessageType (content : String) (attachments : List ChatwootAttachment) : String :=
  match attachments with
  | [] => "text"
  | firstAttachment :: _ =>
    if firstAttachment.file_type = "audio" then "audio"
    else if firstAttachment.file_type = "image" then "image"
    else if firstAttachment.file_type = "video" then "video"
    else if firstAttachment.file_type = "file" then "document"
    else "text"

/-- The kind mapping as the claim words it (audio, image, video map to
themselves, file to document, anything else to text), applied to the first
attachment's file_type when one exists.  Stated from the claim, for
comparison with `getMessageType`. -/
def specMessageKind (firstFileType : Option String) : String :=
  match firstFileType with
  | none => "text"
  | some t =>
    if t = "audio" then "audio"
    else if t = "image" then "image"
    else if t = "video" then "video"
    else if t = "file" then "document"
    else "text"

/-! ## Provider-echo branch of the principal processor
(webhookConsumer.js lines 912-937) -/

/-- The message type selection at webhookConsumer.js lines 917-922 (and,
identically, lines 893-898). -/
def echoMessageType (image audio video document : Bool) : String :=
  if image then "image"
  else if audio then "audio"
  else if video then "video"
  else if document then "document"
  else "text"

structure FromApiEchoResult where
  ticketsChatwoot : TicketMap
  tickets : TicketMap
  posted : Bool
deriving DecidableEq

/-- The `fromMe && fromApi` branch of processWebhookPrincipal
(webhookConsumer.js lines 912-937): consume from the helpdesk echo map;
when that call returns true, pre-credit the provider echo map and post the
message to Chatwoot as outgoing (`posted`), otherwise do nothing.  The
success path of `processOutgoingMessage` is modelled; the catch branch
(which releases the provider ticket when the post throws) is not. -/
def processFromApiEcho (ticketsChatwoot tickets : TicketMap) (phone : String)
    (image audio video document : Bool) : FromApiEchoResult :=
  if (consumeOutgoingTicketChatwoot ticketsChatwoot phone
      (echoMessageType image audio video document)).1 then
    { ticketsChatwoot := (consumeOutgoingTicketChatwoot ticketsChatwoot phone
        (echoMessageType image audio video document)).2,
      tickets := addOutgoingTicket tickets phone (echoMessageType image audio video document),
      posted := true }
  else
    { ticketsChatwoot := (consumeOutgoingTicketChatwoot ticketsChatwoot phone
        (echoMessageType image audio video document)).2,
      tickets := tickets, posted := false }

/-! ## Contact creation payload (src/src/services/chatwoot.js lines 267-330) -/

structure ContactData where
  name : String
  identifier : String
  phone_number : Option String
deriving DecidableEq

/-- createContact (chatwoot.js lines 267-330), restricted to the request
payload it constructs: identifier preference lid, then jid, then phone
(JS truthiness, the empty string standing for absence); `phone_number` is
attached only when `phone` passes the strict E.164 regex.  The HTTP POST
and the avatar download path are not modelled. -/
def createContactData (phone senderPhoto name lid jid : String) :
    Except String ContactData :=
  if lid ≠ "" then
    .ok { name := jsOr name ("Contato " ++ lid), identifier := lid,
          phone_number :=
            if phone = "" then none
            else if isValidE164 phone then some phone else none }
  else if jid ≠ "" then
    .ok { name := jsOr name ("Contato " ++ jid), identifier := jid,
          phone_number :=
            if phone = "" then none
            else if isValidE164 phone then some phone else none }
  else if phone ≠ "" then
    .ok { name := jsOr name ("Contato " ++ phone), identifier := phone,
          phone_number := if isValidE164 phone then some phone else none }
  else
    .error "Nenhum identificador valido fornecido (phone, lid ou jid)"

/-! ## Z-API payload extraction (webhookConsumer.js lines 148-245)

Raw payload fields use `Option` where the JS reads them with a default, and
the empty string where JS truthiness is what matters. -/

structure ZapiImage where
  imageUrl : Option String
  base64 : Option String
  thumbnailUrl : Option String
  caption : Option String
  mimeType : Option String
  width : Option Nat
  height : Option Nat
deriving DecidableEq

structure ZapiAudio where
  audioUrl : Option String
  base64 : Option String
  mimeType : Option String
  ptt : Option Bool
  seconds : Option Nat
  viewOnce : Option Bool
deriving DecidableEq

structure ZapiDocument where
  documentUrl : Option String
  base64 : Option String
  mimeType : Option String
  caption : Option String
  title : Option String
  fileName : Option String
  pageCount : Option Nat
deriving DecidableEq

structure ZapiVideo where
  videoUrl : Option String
  base64 : Option String
  caption : Option String
  mimeType : Option String
  width : Option Nat
  height : Option Nat
  seconds : Option Nat
  viewOnce : Option Bool
  isGif : Option Bool
deriving DecidableEq

structure ZapiBody where
  phone : String
  fromMe : Bool
  fromApi : Bool
  textMessage : String
  isGroup : Bool
  photo : String
  senderPhoto : String
  status : String
  messageId : String
  referenceMessageId : String
  isEdit : Bool
  editMessageId : String
  chatName : String
  senderName : String
  image : Option ZapiImage
  audio : Option ZapiAudio
  document : Option ZapiDocument
  video : Option ZapiVideo
deriving DecidableEq

structure ImageData where
  imageUrl : String
  base64 : String
  thumbnailUrl : Option String
  caption : String
  mimeType : Option String
  width : Option Nat
  height : Option Nat
deriving DecidableEq

structure AudioData where
  audioUrl : String
  base64 : String
  mimeType : Option String
  ptt : Bool
  seconds : Nat
  viewOnce : Bool
deriving DecidableEq

structure DocumentData where
  documentUrl : String
  base64 : String
  mimeType : Option String
  caption : String
  title : String
  fileName : String
  pageCount : Nat
deriving DecidableEq

structure VideoData where
  videoUrl : String
  base64 : String
  caption : String
  mimeType : Option String
  width : Option Nat
  height : Option Nat
  seconds : Nat
  viewOnce : Bool
  isGif : Bool
deriving DecidableEq

/-- The normalized event produced by the Z-API extractor. -/
structure NormalizedEvent where
  phone : Option String
  text : String
  name : Option String
  senderPhoto : Option String
  image : Option ImageData
  audio : Option AudioData
  document : Option DocumentData
  video : Option VideoData
  isGroup : Bool
  fromMe : Bool
  status : Option String
  fromApi : Bool
  messageId : Option String
  replyId : Option String
  origin : String
  groupName : Option String
  senderName : Option String
  editedMessageId : Option String
deriving DecidableEq

inductive ZapiExtract where
  | ignored (reason : String) (origin : String) (groupName : String)
  | event (e : NormalizedEvent)
deriving DecidableEq

def extractZapiImage (i : ZapiImage) : ImageData :=
  { imageUrl := i.imageUrl.getD "", base64 := i.base64.getD "",
    thumbnailUrl := i.thumbnailUrl, caption := i.caption.getD "",
    mimeType := i.mimeType, width := i.width, height := i.height }

def extractZapiAudio (a : ZapiAudio) : AudioData :=
  { audioUrl := a.audioUrl.getD "", base64 := a.base64.getD "",
    mimeType := a.mimeType, ptt := a.ptt.getD false,
    seconds := a.seconds.getD 0, viewOnce := a.viewOnce.getD false }

def extractZapiDocument (d : ZapiDocument) : DocumentData :=
  { documentUrl := d.documentUrl.getD "", base64 := d.base64.getD "",
    mimeType := d.mimeType, caption := d.caption.getD "",
    title := d.title.getD "", fileName := d.fileName.getD "",
    pageCount := d.pageCount.getD 0 }

def extractZapiVideo (v : ZapiVideo) : VideoData :=
  { videoUrl := v.videoUrl.getD "", base64 := v.base64.getD "",
    caption := v.caption.getD "", mimeType := v.mimeType,
    width := v.width, height := v.height, seconds := v.seconds.getD 0,
    viewOnce := v.viewOnce.getD false, isGif := v.isGif.getD false }

/-- extractZapiData (webhookConsumer.js lines 148-245).  For groups the
payload phone (falling back to the group name) is used verbatim as the
identifier; for direct chats the phone goes through `normalizeToE164`. -/
def extractZapiData (body : ZapiBody) (desconsiderarGrupo : Bool)
    (defaultCountry : String) : ZapiExtract :=
  let fromMe := body.fromMe
  let fromApi := body.fromApi
  let text := body.textMessage
  let isGroup := body.isGroup
  let senderPhoto := if isGroup then none else truthyStr (some (jsOr body.photo body.senderPhoto))
  let status := truthyStr (some body.status)
  let messageId := truthyStr (some body.messageId)
  let replyId := truthyStr (some body.referenceMessageId)
  let editedMessageId := if body.isEdit then messageId else none
  let newMessageId :=
    if body.isEdit then
      (if body.editMessageId = "" then messageId else some body.editMessageId)
    else messageId
  let image := body.image.map extractZapiImage
  let audio := body.audio.map extractZapiAudio
  let document := body.document.map extractZapiDocument
  let video := body.video.map extractZapiVideo
  let finalMessageId := match newMessageId with
    | some s => some s
    | none => messageId
  if isGroup then
    let groupName := jsOr body.chatName "Grupo sem nome"
    let name := if fromMe then groupName else jsOr body.senderName groupName
    if desconsiderarGrupo then
      .ignored "group_disconsidered" "zapi" groupName
    else
      let rawPhone := jsOr body.phone groupName
      .event
        { phone := some rawPhone, text := text, name := some name,
          senderPhoto := senderPhoto, image := image, audio := audio,
          document := document, video := video, isGroup := true,
          fromMe := fromMe, status := status, fromApi := fromApi,
          messageId := finalMessageId, replyId := replyId, origin := "zapi",
          groupName := some groupName,
          senderName := if fromMe then none else truthyStr (some body.senderName),
          editedMessageId := editedMessageId }
  else
    let name :=
      if fromMe then truthyStr (some (jsOr body.chatName body.phone))
      else truthyStr (some (jsOr body.senderName (jsOr body.chatName body.phone)))
    .event
      { phone := normalizeToE164 body.phone defaultCountry, text := text,
        name := name, senderPhoto := senderPhoto, image := image,
        audio := audio, document := document, video := video,
        isGroup := false, fromMe := fromMe, status := status,
        fromApi := fromApi, messageId := finalMessageId, replyId := replyId,
        origin := "zapi", groupName := none, senderName := none,
        editedMessageId := editedMessageId }

/-- The contact identifier carried by an extraction result. -/
def zapiExtractPhone : ZapiExtract → Option String
  | .ignored _ _ _ => none
  | .event e => e.phone

/-! ## Provider message deletion (src/src/services/whatsapp.js lines 583-688) -/

/-- The request each provider dialect emits for a deletion. -/
inductive DeleteRequest where
  | zapi (messageId phone : String) (owner : Bool)
  | uazapi (id : String)
  | wuzapi (messageId : String)
deriving DecidableEq

/-- HTTP method and path of each deletion request, as in the axios calls. -/
def deleteRequestRoute : DeleteRequest → String × String
  | .zapi _ _ _ => ("DELETE", "/messages")
  | .uazapi _ => ("POST", "/message/delete")
  | .wuzapi _ => ("POST", "/chat/delete")

/-- deleteViaZAPI (whatsapp.js lines 609-662): requires a recipient
(`options?.recipient || ''`); group identifiers (suffix `@g.us` or
`-group`) are used verbatim as the phone parameter, anything else is
reduced to its digits (empty digits are an error); `owner` defaults to
true (`options?.owner !== false`). -/
def deleteViaZAPI (messageId : String) (recipientOpt : Option String)
    (ownerOpt : Option Bool) : Except String DeleteRequest :=
  let recipient := recipientOpt.getD ""
  let owner := ownerOpt != some false
  if recipient = "" then
    .error "Recipient (phone ou id do grupo) e obrigatorio para deletar mensagem via Z-API"
  else if strEndsWith recipient "@g.us" then
    .ok (.zapi messageId recipient owner)
  else if strEndsWith recipient "-group" then
    .ok (.zapi messageId recipient owner)
  else
    let digitsOnly := extractDigits recipient
    if digitsOnly = "" then
      .error "Recipient invalido para delecao via Z-API"
    else
      .ok (.zapi messageId digitsOnly owner)

/-- deleteViaUAZAPI (whatsapp.js lines 583-607): POST /message/delete with
the message id only; no recipient is consulted. -/
def deleteViaUAZAPI (messageId : String) : DeleteRequest := .uazapi messageId

/-- deleteViaWuzapi (whatsapp.js lines 664-688): POST /chat/delete with the
message id only; no recipient is consulted. -/
def deleteViaWuzapi (messageId : String) : DeleteRequest := .wuzapi messageId

/-! # Theorems

First the association-list and ledger lemmas, then one theorem per claim
(with witnesses and counterexamples where applicable). -/

theorem alistKeys_cons {α : Type} (k : String) (v : α) (l : List (String × α)) :
    alistKeys ((k, v) :: l) = k :: alistKeys l := rfl

theorem mem_alistKeys_of_mem {α : Type} {l : List (String × α)} {e : String × α}
    (h : e ∈ l) : e.1 ∈ alistKeys l :=
  List.mem_map_of_mem (fun x => x.1) h

theorem alistGet_set_self {α : Type} (l : List (String × α)) (k : String) (v : α) :
    alistGet (alistSet l k v) k = some v := by
  induction l with
  | nil => simp [alistSet, alistGet]
  | cons e rest ih =>
    obtain ⟨k', v'⟩ := e
    by_cases h : k' = k
    · simp [alistSet, alistGet, h]
    · simp [alistSet, alistGet, h, ih]

theorem alistGet_set_ne {α : Type} (l : List (String × α)) (k k₀ : String) (v : α)
    (h : k₀ ≠ k) : alistGet (alistSet l k v) k₀ = alistGet l k₀ := by
  have hne : ¬ k = k₀ := fun hh => h hh.symm
  induction l with
  | nil => simp [alistSet, alistGet, hne]
  | cons e rest ih =>
    obtain ⟨k', v'⟩ := e
    by_cases hk : k' = k
    · subst hk
      simp [alistSet, alistGet, hne]
    · by_cases hk₀ : k' = k₀
      · simp [alistSet, alistGet, hk, hk₀, h]
      · simp [alistSet, alistGet, hk, hk₀, ih]

theorem alistGet_delete_self {α : Type} (l : List (String × α)) (k : String) :
    alistGet (alistDelete l k) k = none := by
  induction l with
  | nil => simp [alistDelete, alistGet]
  | cons e rest ih =>
    obtain ⟨k', v'⟩ := e
    by_cases h : k' = k
    · simp [alistDelete, h, ih]
    · simp [alistDelete, alistGet, h, ih]

theorem alistGet_delete_ne {α : Type} (l : List (String × α)) (k k₀ : String)
    (h : k₀ ≠ k) : alistGet (alistDelete l k) k₀ = alistGet l k₀ := by
  have hne : ¬ k = k₀ := fun hh => h hh.symm
  induction l with
  | nil => simp [alistDelete, alistGet]
  | cons e rest ih =>
    obtain ⟨k', v'⟩ := e
    by_cases hk : k' = k
    · subst hk
      simp [alistDelete, alistGet, hne, ih]
    · by_cases hk₀ : k' = k₀
      · simp [alistDelete, alistGet, hk, hk₀, h]
      · simp [alistDelete, alistGet, hk, hk₀, ih]

theorem mem_of_alistGet {α : Type} {l : List (String × α)} {k : String} {v : α}
    (h : alistGet l k = some v) : (k, v) ∈ l := by
  induction l with
  | nil => simp [alistGet] at h
  | cons e rest ih =>
    obtain ⟨k', v'⟩ := e
    by_cases hk : k' = k
    · subst hk
      simp [alistGet] at h
      simp [h]
    · simp [alistGet, hk] at h
      exact List.mem_cons_of_mem _ (ih h)

theorem alistGet_of_mem_nodup {α : Type} {l : List (String × α)} {k : String} {v : α}
    (hmem : (k, v) ∈ l) (hnd : (alistKeys l).Nodup) : alistGet l k = some v := by
  induction l with
  | nil => simp at hmem
  | cons e rest ih =>
    obtain ⟨k', v'⟩ := e
    rw [alistKeys_cons] at hnd
    have hnd' := List.nodup_cons.mp hnd
    rcases List.mem_cons.mp hmem with heq | hmem'
    · injection heq with h1 h2
      subst h1
      subst h2
      simp [alistGet]
    · have hk : k' ≠ k := by
        intro hh
        exact hnd'.1 (hh ▸ mem_alistKeys_of_mem hmem')
      simp only [alistGet, if_neg hk]
      exact ih hmem' hnd'.2

theorem mem_alistKeys_set_elim {α : Type} {l : List (String × α)} {k : String} {v : α}
    {x : String} (h : x ∈ alistKeys (alistSet l k v)) : x = k ∨ x ∈ alistKeys l := by
  induction l with
  | nil => simpa [alistSet, alistKeys] using h
  | cons e₀ rest ih =>
    obtain ⟨k', v'⟩ := e₀
    by_cases hk : k' = k
    · rw [alistKeys_cons]
      simp only [alistSet, if_pos hk, alistKeys_cons] at h
      rcases List.mem_cons.mp h with h | h
      · exact Or.inl h
      · exact Or.inr (List.mem_cons_of_mem _ h)
    · simp only [alistSet, if_neg hk, alistKeys_cons] at h
      rw [alistKeys_cons]
      rcases List.mem_cons.mp h with h | h
      · exact Or.inr (by simp [h])
      · rcases ih h with h' | h'
        · exact Or.inl h'
        · exact Or.inr (List.mem_cons_of_mem _ h')

theorem mem_alistKeys_delete_elim {α : Type} {l : List (String × α)} {k : String}
    {x : String} (h : x ∈ alistKeys (alistDelete l k)) : x ∈ alistKeys l := by
  induction l with
  | nil => simpa [alistDelete] using h
  | cons e₀ rest ih =>
    obtain ⟨k', v'⟩ := e₀
    rw [alistKeys_cons]
    by_cases hk : k' = k
    · simp only [alistDelete, if_pos hk] at h
      exact List.mem_cons_of_mem _ (ih h)
    · simp only [alistDelete, if_neg hk, alistKeys_cons] at h
      rcases List.mem_cons.mp h with h | h
      · exact List.mem_cons.mpr (Or.inl h)
      · exact List.mem_cons_of_mem _ (ih h)

theorem alistKeys_set_nodup {α : Type} {l : List (String × α)} (k : String) (v : α)
    (hnd : (alistKeys l).Nodup) : (alistKeys (alistSet l k v)).Nodup := by
  induction l with
  | nil => simp [alistSet, alistKeys]
  | cons e₀ rest ih =>
    obtain ⟨k', v'⟩ := e₀
    rw [alistKeys_cons] at hnd
    have hnd' := List.nodup_cons.mp hnd
    by_cases hk : k' = k
    · subst hk
      simp only [alistSet, if_pos rfl, alistKeys_cons]
      exact List.nodup_cons.mpr ⟨hnd'.1, hnd'.2⟩
    · simp only [alistSet, if_neg hk, alistKeys_cons]
      refine List.nodup_cons.mpr ⟨?_, ih hnd'.2⟩
      intro hmem
      rcases mem_alistKeys_set_elim hmem with h | h
      · exact hk h
      · exact hnd'.1 h

theorem alistKeys_delete_nodup {α : Type} {l : List (String × α)} (k : String)
    (hnd : (alistKeys l).Nodup) : (alistKeys (alistDelete l k)).Nodup := by
  induction l with
  | nil => simp [alistDelete, alistKeys]
  | cons e₀ rest ih =>
    obtain ⟨k', v'⟩ := e₀
    rw [alistKeys_cons] at hnd
    have hnd' := List.nodup_cons.mp hnd
    by_cases hk : k' = k
    · simp only [alistDelete, if_pos hk]
      exact ih hnd'.2
    · simp only [alistDelete, if_neg hk, alistKeys_cons]
      refine List.nodup_cons.mpr ⟨?_, ih hnd'.2⟩
      intro hmem
      exact hnd'.1 (mem_alistKeys_delete_elim hmem)

theorem mem_alistDelete_elim {α : Type} {l : List (String × α)} {k : String}
    {e : String × α} (h : e ∈ alistDelete l k) : e ∈ l ∧ e.1 ≠ k := by
  induction l with
  | nil => simp [alistDelete] at h
  | cons e₀ rest ih =>
    obtain ⟨k', v'⟩ := e₀
    by_cases hk : k' = k
    · simp only [alistDelete, if_pos hk] at h
      exact ⟨List.mem_cons_of_mem _ (ih h).1, (ih h).2⟩
    · simp only [alistDelete, if_neg hk] at h
      rcases List.mem_cons.mp h with h | h
      · subst h
        exact ⟨List.mem_cons.mpr (Or.inl rfl), hk⟩
      · exact ⟨List.mem_cons_of_mem _ (ih h).1, (ih h).2⟩

/-! ### Credit-ledger lemmas -/

theorem ticketCount_eq (m : TicketMap) (p k : String) :
    ticketCount m p k = (alistGet ((alistGet m p).getD []) k).getD 0 := by
  unfold ticketCount
  cases alistGet m p <;> simp [alistGet]

theorem ticketCount_congr {m₁ m₂ : TicketMap} {p : String}
    (h : alistGet m₁ p = alistGet m₂ p) (k : String) :
    ticketCount m₁ p k = ticketCount m₂ p k := by
  unfold ticketCount
  rw [h]

theorem consume_nonpos (m : TicketMap) (p k : String)
    (h : ¬ 0 < ticketCount m p k) : consumeOutgoingTicket m p k = (false, m) := by
  rw [ticketCount_eq] at h
  unfold consumeOutgoingTicket
  cases hg : alistGet m p with
  | none => rfl
  | some obj =>
    rw [hg] at h
    simp only [Option.getD_some] at h
    simp [h]

theorem consume_pos (m : TicketMap) (p k : String) (obj : TicketObj)
    (hg : alistGet m p = some obj) (h : 0 < (alistGet obj k).getD 0) :
    consumeOutgoingTicket m p k =
      (true,
        if (alistSet obj k ((alistGet obj k).getD 0 - 1)).any (fun e => 0 < e.2)
        then alistSet m p (alistSet obj k ((alistGet obj k).getD 0 - 1))
        else alistDelete m p) := by
  unfold consumeOutgoingTicket
  rw [hg]
  simp [h]

theorem consumeChatwoot_eq (m : TicketMap) (p k : String) :
    consumeOutgoingTicketChatwoot m p k =
      (!(consumeOutgoingTicket m p k).1, (consumeOutgoingTicket m p k).2) := by
  unfold consumeOutgoingTicket consumeOutgoingTicketChatwoot
  cases alistGet m p with
  | none => simp
  | some obj =>
    by_cases h : 0 < (alistGet obj k).getD 0 <;> simp [h]

theorem addChatwoot_eq : addOutgoingTicketChatwoot = addOutgoingTicket := rfl

theorem consume_fst_pos (m : TicketMap) (p k : String)
    (h : 0 < ticketCount m p k) : (consumeOutgoingTicket m p k).1 = true := by
  cases hg : alistGet m p with
  | none =>
    exfalso
    rw [ticketCount_eq, hg] at h
    simp [alistGet] at h
  | some obj =>
    rw [ticketCount_eq, hg] at h
    simp only [Option.getD_some] at h
    rw [consume_pos m p k obj hg h]

theorem ticketCount_consume_pos (m : TicketMap) (p k : String)
    (h : 0 < ticketCount m p k) :
    ticketCount (consumeOutgoingTicket m p k).2 p k = ticketCount m p k - 1 := by
  cases hg : alistGet m p with
  | none =>
    exfalso
    rw [ticketCount_eq, hg] at h
    simp [alistGet] at h
  | some obj =>
    have hcur : ticketCount m p k = (alistGet obj k).getD 0 := by
      rw [ticketCount_eq, hg]
      rfl
    rw [hcur] at h ⊢
    rw [consume_pos m p k obj hg h]
    by_cases hA : (alistSet obj k ((alistGet obj k).getD 0 - 1)).any (fun e => 0 < e.2) = true
    · simp only [hA, if_true]
      rw [ticketCount_eq, alistGet_set_self, Option.getD_some, alistGet_set_self, Option.getD_some]
    · simp only [hA, if_false, Bool.false_eq_true]
      have hmem : (k, (alistGet obj k).getD 0 - 1) ∈ alistSet obj k ((alistGet obj k).getD 0 - 1) :=
        mem_of_alistGet (alistGet_set_self _ _ _)
      have hnotpos : ¬ 0 < (alistGet obj k).getD 0 - 1 := by
        intro hpos
        exact hA (List.any_eq_true.mpr
          ⟨(k, (alistGet obj k).getD 0 - 1), hmem, decide_eq_true hpos⟩)
      have hz : (alistGet obj k).getD 0 - 1 = 0 := by omega
      rw [ticketCount_eq, alistGet_delete_self]
      simpa using hz.symm

theorem ticketCount_add_self (m : TicketMap) (p k : String) :
    ticketCount (addOutgoingTicket m p k) p k = ticketCount m p k + 1 := by
  rw [ticketCount_eq, ticketCount_eq]
  unfold addOutgoingTicket
  rw [alistGet_set_self]
  simp [alistGet_set_self]

theorem ticketCount_add_other (m : TicketMap) (p k p' k' : String)
    (h : ¬(p' = p ∧ k' = k)) :
    ticketCount (addOutgoingTicket m p k) p' k' = ticketCount m p' k' := by
  by_cases hp : p' = p
  · subst hp
    have hk : k' ≠ k := fun hk => h ⟨rfl, hk⟩
    rw [ticketCount_eq, ticketCount_eq]
    unfold addOutgoingTicket
    rw [alistGet_set_self]
    simp [alistGet_set_ne _ _ _ _ hk]
  · rw [ticketCount_eq, ticketCount_eq]
    unfold addOutgoingTicket
    rw [alistGet_set_ne _ _ _ _ hp]

theorem ticketCount_add_consume (m : TicketMap) (p k : String)
    (hnn : ∀ k', 0 ≤ ticketCount m p k') (p' k' : String) :
    ticketCount (consumeOutgoingTicket (addOutgoingTicket m p k) p k).2 p' k'
      = ticketCount m p' k' := by
  have hc₀nn : 0 ≤ (alistGet ((alistGet m p).getD []) k).getD 0 := by
    have := hnn k
    rwa [ticketCount_eq] at this
  have hget₁ : alistGet (addOutgoingTicket m p k) p
      = some (alistSet ((alistGet m p).getD []) k
          ((alistGet ((alistGet m p).getD []) k).getD 0 + 1)) := by
    unfold addOutgoingTicket
    exact alistGet_set_self _ _ _
  have hcur : (alistGet (alistSet ((alistGet m p).getD []) k
      ((alistGet ((alistGet m p).getD []) k).getD 0 + 1)) k).getD 0
      = (alistGet ((alistGet m p).getD []) k).getD 0 + 1 := by
    rw [alistGet_set_self]
    rfl
  have hpos : 0 < (alistGet (alistSet ((alistGet m p).getD []) k
      ((alistGet ((alistGet m p).getD []) k).getD 0 + 1)) k).getD 0 := by
    rw [hcur]
    omega
  rw [consume_pos _ p k _ hget₁ hpos]
  rw [hcur]
  have hsimp : (alistGet ((alistGet m p).getD []) k).getD 0 + 1 - 1
      = (alistGet ((alistGet m p).getD []) k).getD 0 := by omega
  rw [hsimp]
  by_cases hA : (alistSet (alistSet ((alistGet m p).getD []) k
      ((alistGet ((alistGet m p).getD []) k).getD 0 + 1)) k
      ((alistGet ((alistGet m p).getD []) k).getD 0)).any (fun e => 0 < e.2) = true
  · simp only [hA, if_true]
    by_cases hp : p' = p
    · rw [hp]
      rw [ticketCount_eq, alistGet_set_self, Option.getD_some]
      by_cases hk : k' = k
      · rw [hk]
        rw [alistGet_set_self, Option.getD_some, ticketCount_eq]
      · rw [alistGet_set_ne _ _ _ _ hk, alistGet_set_ne _ _ _ _ hk, ticketCount_eq]
    · refine ticketCount_congr ?_ k'
      rw [alistGet_set_ne _ _ _ _ hp]
      unfold addOutgoingTicket
      rw [alistGet_set_ne _ _ _ _ hp]
  · simp only [hA, if_false, Bool.false_eq_true]
    by_cases hp : p' = p
    · rw [hp]
      rw [ticketCount_eq, alistGet_delete_self, Option.getD_none]
      have hall : ∀ e ∈ alistSet (alistSet ((alistGet m p).getD []) k
          ((alistGet ((alistGet m p).getD []) k).getD 0 + 1)) k
          ((alistGet ((alistGet m p).getD []) k).getD 0), ¬ 0 < e.2 := by
        intro e he hepos
        exact hA (List.any_eq_true.mpr ⟨e, he, decide_eq_true hepos⟩)
      by_cases hk : k' = k
      · rw [hk]
        have hmem : (k, (alistGet ((alistGet m p).getD []) k).getD 0)
            ∈ alistSet (alistSet ((alistGet m p).getD []) k
              ((alistGet ((alistGet m p).getD []) k).getD 0 + 1)) k
              ((alistGet ((alistGet m p).getD []) k).getD 0) :=
          mem_of_alistGet (alistGet_set_self _ _ _)
        have hle : ¬ (0:Int) < (alistGet ((alistGet m p).getD []) k).getD 0 := hall _ hmem
        rw [show alistGet ([] : TicketObj) k = none from rfl, Option.getD_none, ticketCount_eq]
        omega
      · rw [show alistGet ([] : TicketObj) k' = none from rfl, Option.getD_none, ticketCount_eq]
        cases hv : alistGet ((alistGet m p).getD []) k' with
        | none => simp [hv]
        | some v =>
          have hvmem : (k', v) ∈ alistSet (alistSet ((alistGet m p).getD []) k
              ((alistGet ((alistGet m p).getD []) k).getD 0 + 1)) k
              ((alistGet ((alistGet m p).getD []) k).getD 0) := by
            apply mem_of_alistGet
            rw [alistGet_set_ne _ _ _ _ hk, alistGet_set_ne _ _ _ _ hk]
            exact hv
          have hvle : ¬ (0:Int) < v := hall _ hvmem
          have hvnn : 0 ≤ v := by
            have := hnn k'
            rw [ticketCount_eq, hv] at this
            simpa using this
          have hv0 : v = 0 := by omega
          simp [hv, hv0]
    · refine ticketCount_congr ?_ k'
      rw [alistGet_delete_ne _ _ _ hp]
      unfold addOutgoingTicket
      rw [alistGet_set_ne _ _ _ _ hp]

/-! ### Ledger invariant lemmas -/

theorem getD_nonneg_of (obj : TicketObj) (k : String)
    (h : ∀ k' c, alistGet obj k' = some c → 0 ≤ c) : 0 ≤ (alistGet obj k).getD 0 := by
  cases hv : alistGet obj k with
  | none => simp
  | some v => simpa using h k v hv

theorem ledgerInv_obj (m : TicketMap) (p : String) (hm : LedgerInv m) :
    (alistKeys ((alistGet m p).getD [])).Nodup ∧
    (∀ k c, alistGet ((alistGet m p).getD []) k = some c → 0 ≤ c) := by
  cases hg : alistGet m p with
  | none =>
    constructor
    · simp [alistKeys]
    · intro k c h
      simp [alistGet] at h
  | some o =>
    simpa using ⟨(hm.2 p o hg).1, (hm.2 p o hg).2.1⟩

theorem ledgerInv_nil : LedgerInv [] := by
  constructor
  · simp [alistKeys]
  · intro p obj h
    simp [alistGet] at h

theorem ledgerInv_add (m : TicketMap) (p k : String) (hm : LedgerInv m) :
    LedgerInv (addOutgoingTicket m p k) := by
  refine ⟨?_, ?_⟩
  · exact alistKeys_set_nodup _ _ hm.1
  · intro p' obj' hg'
    unfold addOutgoingTicket at hg'
    by_cases hp : p' = p
    · subst hp
      rw [alistGet_set_self] at hg'
      injection hg' with hg'
      subst hg'
      refine ⟨alistKeys_set_nodup _ _ (ledgerInv_obj m p' hm).1, ?_, ?_⟩
      · intro k' c hgc
        by_cases hk : k' = k
        · subst hk
          rw [alistGet_set_self] at hgc
          injection hgc with hgc
          subst hgc
          have := getD_nonneg_of _ k' (ledgerInv_obj m p' hm).2
          omega
        · rw [alistGet_set_ne _ _ _ _ hk] at hgc
          exact (ledgerInv_obj m p' hm).2 k' c hgc
      · refine ⟨(k, (alistGet ((alistGet m p' ).getD []) k).getD 0 + 1),
          mem_of_alistGet (alistGet_set_self _ _ _), ?_⟩
        have := getD_nonneg_of ((alistGet m p').getD []) k (ledgerInv_obj m p' hm).2
        show (0:Int) < (alistGet ((alistGet m p').getD []) k).getD 0 + 1
        omega
    · rw [alistGet_set_ne _ _ _ _ hp] at hg'
      exact hm.2 p' obj' hg'

theorem ledgerInv_consume (m : TicketMap) (p k : String) (hm : LedgerInv m) :
    LedgerInv (consumeOutgoingTicket m p k).2 := by
  cases hg : alistGet m p with
  | none =>
    have : consumeOutgoingTicket m p k = (false, m) := by
      unfold consumeOutgoingTicket
      rw [hg]
    rw [this]
    exact hm
  | some obj =>
    by_cases hcur : 0 < (alistGet obj k).getD 0
    · rw [consume_pos m p k obj hg hcur]
      by_cases hA : (alistSet obj k ((alistGet obj k).getD 0 - 1)).any (fun e => 0 < e.2) = true
      · simp only [hA, if_true]
        refine ⟨alistKeys_set_nodup _ _ hm.1, ?_⟩
        intro p' obj' hg'
        by_cases hp : p' = p
        · subst hp
          rw [alistGet_set_self] at hg'
          injection hg' with hg'
          subst hg'
          refine ⟨alistKeys_set_nodup _ _ (hm.2 p' obj hg).1, ?_, ?_⟩
          · intro k' c hgc
            by_cases hk : k' = k
            · subst hk
              rw [alistGet_set_self] at hgc
              injection hgc with hgc
              subst hgc
              omega
            · rw [alistGet_set_ne _ _ _ _ hk] at hgc
              exact (hm.2 p' obj hg).2.1 k' c hgc
          · obtain ⟨e, he, hepos⟩ := List.any_eq_true.mp hA
            exact ⟨e, he, of_decide_eq_true hepos⟩
        · rw [alistGet_set_ne _ _ _ _ hp] at hg'
          exact hm.2 p' obj' hg'
      · simp only [hA, if_false, Bool.false_eq_true]
        refine ⟨alistKeys_delete_nodup _ hm.1, ?_⟩
        intro p' obj' hg'
        have hp : p' ≠ p := by
          intro hpp
          subst hpp
          rw [alistGet_delete_self] at hg'
          cases hg'
        rw [alistGet_delete_ne _ _ _ hp] at hg'
        exact hm.2 p' obj' hg'
    · rw [consume_nonpos m p k (by rw [ticketCount_eq, hg]; simpa using hcur)]
      exact hm

theorem ledgerInv_foldl (ops : List TicketOp) (m : TicketMap) (hm : LedgerInv m) :
    LedgerInv (ops.foldl ticketStep m) := by
  induction ops generalizing m with
  | nil => exact hm
  | cons op rest ih =>
    rw [List.foldl_cons]
    apply ih
    cases op with
    | add p k => exact ledgerInv_add m p k hm
    | consume p k => exact ledgerInv_consume m p k hm

theorem ledgerInv_runTickets (ops : List TicketOp) : LedgerInv (runTickets ops) :=
  ledgerInv_foldl ops [] ledgerInv_nil

theorem ticketStepChatwoot_eq_ticketStep : ticketStepChatwoot = ticketStep := by
  funext m op
  cases op with
  | add p k => rfl
  | consume p k =>
    show (consumeOutgoingTicketChatwoot m p k).2 = (consumeOutgoingTicket m p k).2
    rw [consumeChatwoot_eq]

theorem runTicketsChatwoot_eq (ops : List TicketOp) :
    runTicketsChatwoot ops = runTickets ops := by
  unfold runTicketsChatwoot runTickets
  rw [ticketStepChatwoot_eq_ticketStep]

/-! ### Mapping-cache lemmas -/

theorem cacheKeys_nodup_foldl (ops : List CacheOp) (c : MessageIdCache)
    (hc : (alistKeys c).Nodup) : (alistKeys (ops.foldl cacheStep c)).Nodup := by
  induction ops generalizing c with
  | nil => exact hc
  | cons op rest ih =>
    rw [List.foldl_cons]
    apply ih
    cases op with
    | store h p conv inbox prov integ => exact alistKeys_set_nodup _ _ hc
    | remove h => exact alistKeys_delete_nodup _ hc

theorem runCache_nodup (ops : List CacheOp) : (alistKeys (runCache ops)).Nodup :=
  cacheKeys_nodup_foldl ops [] (by simp [alistKeys])

theorem foldl_get_of_key_ne (mid : List CacheOp) (c : MessageIdCache) (h : String)
    (hmid : ∀ op ∈ mid, cacheOpKey op ≠ h) :
    alistGet (mid.foldl cacheStep c) h = alistGet c h := by
  induction mid generalizing c with
  | nil => rfl
  | cons op rest ih =>
    have hop : cacheOpKey op ≠ h := hmid op (by simp)
    have hrest : ∀ op' ∈ rest, cacheOpKey op' ≠ h := fun op' h' => hmid op' (by simp [h'])
    rw [List.foldl_cons, ih _ hrest]
    cases op with
    | store h' p conv inbox prov integ =>
      exact alistGet_set_ne _ _ _ _ (Ne.symm hop)
    | remove h' =>
      exact alistGet_delete_ne _ _ _ (Ne.symm hop)

/-! ### E.164 regex and suffixes -/

theorem last_mem_or_nil (c₀ c₁ : Char) (rest l : List Char) (a : Char)
    (h : c₀ :: c₁ :: rest = l ++ [a]) : rest = [] ∨ a ∈ rest := by
  rcases l with _ | ⟨x, _ | ⟨y, l₂⟩⟩
  · simp at h
  · simp at h
    exact Or.inl h.2.2
  · simp at h
    refine Or.inr ?_
    rw [h.2.2]
    exact List.mem_append_right _ (by simp)

theorem isValidE164_last_not_digit (s : String) (l : List Char) (a : Char)
    (hdata : s.data = l ++ [a]) (ha : a.isDigit = false) : isValidE164 s = false := by
  unfold isValidE164
  rcases hsd : s.data with _ | ⟨c₀, _ | ⟨c₁, rest⟩⟩
  · rfl
  · rfl
  · have hshape : c₀ :: c₁ :: rest = l ++ [a] := by rw [← hsd, hdata]
    rcases last_mem_or_nil c₀ c₁ rest l a hshape with hrest | hmem
    · subst hrest
      simp
    · have hall : rest.all Char.isDigit = false := by
        by_contra hcon
        have : rest.all Char.isDigit = true := by
          cases hv : rest.all Char.isDigit with
          | true => rfl
          | false => exact absurd hv hcon
        have := List.all_eq_true.mp this a hmem
        rw [ha] at this
        cases this
      simp [hall]

theorem isValidE164_gus (t : String) : isValidE164 (t ++ "@g.us") = false := by
  apply isValidE164_last_not_digit _ (t.data ++ ['@', 'g', '.', 'u']) 's'
  · rw [String.data_append]
    simp
  · decide

theorem isValidE164_zapi_group (t : String) : isValidE164 (t ++ "-group") = false := by
  apply isValidE164_last_not_digit _ (t.data ++ ['-', 'g', 'r', 'o', 'u']) 'p'
  · rw [String.data_append]
    simp
  · decide

/-! ### Claim theorems -/

/-- C1, counterexample to the claim as stated: a helpdesk echo credit
exists for ("+5511999998888", text), yet the `fromMe=true, fromApi=true`
branch does not post the event and does not pre-credit the provider echo
map — the code posts exactly when no credit existed. -/
theorem echoFromApi_claim_cex :
    0 < ticketCount (addOutgoingTicketChatwoot [] "+5511999998888" "text")
        "+5511999998888" "text" ∧
    (processFromApiEcho (addOutgoingTicketChatwoot [] "+5511999998888" "text") []
        "+5511999998888" false false false false).posted = false ∧
    (processFromApiEcho (addOutgoingTicketChatwoot [] "+5511999998888" "text") []
        "+5511999998888" false false false false).tickets = [] := by
  decide

/-- C1 (amended): on a `fromMe=true, fromApi=true` provider event the
processor consumes one credit from the helpdesk echo map for
(recipient, kind); if NO credit existed (`consumeOutgoingTicketChatwoot`
returned its sentinel true) it pre-credits the provider echo map and posts
the message to the helpdesk as outgoing, and if a credit existed it
consumes it and skips the event without posting anything. -/
theorem echoFromApi_inverted_sentinel (ticketsChatwoot tickets : TicketMap)
    (phone : String) (image audio video document : Bool) :
    (ticketCount ticketsChatwoot phone (echoMessageType image audio video document) = 0 →
      processFromApiEcho ticketsChatwoot tickets phone image audio video document
        = { ticketsChatwoot := ticketsChatwoot,
            tickets := addOutgoingTicket tickets phone (echoMessageType image audio video document),
            posted := true }) ∧
    (0 < ticketCount ticketsChatwoot phone (echoMessageType image audio video document) →
      (processFromApiEcho ticketsChatwoot tickets phone image audio video document).posted = false ∧
      (processFromApiEcho ticketsChatwoot tickets phone image audio video document).tickets = tickets ∧
      ticketCount
          (processFromApiEcho ticketsChatwoot tickets phone image audio video document).ticketsChatwoot
          phone (echoMessageType image audio video document)
        = ticketCount ticketsChatwoot phone (echoMessageType image audio video document) - 1) := by
  constructor
  · intro h0
    have hcons : consumeOutgoingTicket ticketsChatwoot phone
        (echoMessageType image audio video document) = (false, ticketsChatwoot) :=
      consume_nonpos _ _ _ (by rw [h0]; simp)
    unfold processFromApiEcho
    rw [consumeChatwoot_eq, hcons]
    rfl
  · intro hpos
    have hfst := consume_fst_pos _ _ _ hpos
    have hcnt := ticketCount_consume_pos _ _ _ hpos
    unfold processFromApiEcho
    rw [consumeChatwoot_eq, hfst]
    exact ⟨rfl, rfl, hcnt⟩

/-- Witness for the amended C1 theorem at concrete inputs: with no credit
the event is posted and the provider map pre-credited; with a credit the
event is skipped. -/
theorem echoFromApi_inverted_sentinel_witness :
    processFromApiEcho [] [] "p" false false false false
      = { ticketsChatwoot := [], tickets := addOutgoingTicket [] "p" "text",
          posted := true } ∧
    (processFromApiEcho (addOutgoingTicketChatwoot [] "p" "text") [] "p"
        false false false false).posted = false := by
  have h1 := (echoFromApi_inverted_sentinel [] [] "p" false false false false).1 (by decide)
  have h2 := (echoFromApi_inverted_sentinel (addOutgoingTicketChatwoot [] "p" "text") []
    "p" false false false false).2 (by decide)
  exact ⟨h1, h2.1⟩

/-- C2, counterexample to the claim as stated: after `store("1","P")` then
`store("2","P")` — with no remove or later store for "2" — the reverse
lookup for "P" returns "1", not "2". -/
theorem messageIdMapping_roundtrip_cex :
    getApiMessageId (runCache [CacheOp.store "1" "P" none none none none,
        CacheOp.store "2" "P" none none none none]) "2" = some "P" ∧
    getChatwootMessageId (runCache [CacheOp.store "1" "P" none none none none,
        CacheOp.store "2" "P" none none none none]) "P" = some "1" ∧
    (some "1" : Option String) ≠ some "2" := by
  decide

/-- C2 (amended): after `storeMessageIdMapping(h, p)` with p non-empty, and
while no later operation touches key h and h is the only cache entry whose
apiMessageId is p, `getApiMessageId h = p` and `getChatwootMessageId p = h`;
after `removeMessageIdMapping h` both lookups return null (the reverse one
again provided no other entry maps to p). -/
theorem messageIdMapping_roundtrip (pre mid : List CacheOp) (h p : String)
    (conv inbox prov integ : Option String) (hp : p ≠ "")
    (hmid : ∀ op ∈ mid, cacheOpKey op ≠ h)
    (huniq : ∀ kv ∈ runCache (pre ++ CacheOp.store h p conv inbox prov integ :: mid),
      (kv : String × CacheEntry).2.apiMessageId = p → kv.1 = h) :
    getApiMessageId (runCache (pre ++ CacheOp.store h p conv inbox prov integ :: mid)) h
      = some p ∧
    getChatwootMessageId (runCache (pre ++ CacheOp.store h p conv inbox prov integ :: mid)) p
      = some h ∧
    getApiMessageId
        (removeMessageIdMapping
          (runCache (pre ++ CacheOp.store h p conv inbox prov integ :: mid)) h) h
      = none ∧
    getChatwootMessageId
        (removeMessageIdMapping
          (runCache (pre ++ CacheOp.store h p conv inbox prov integ :: mid)) h) p
      = none := by
  have hkey : alistGet (runCache (pre ++ CacheOp.store h p conv inbox prov integ :: mid)) h
      = some { apiMessageId := p, conversationId := truthyStr conv,
               inboxId := truthyStr inbox, provider := truthyStr prov,
               integrationId := truthyStr integ } := by
    unfold runCache
    rw [List.foldl_append, List.foldl_cons, foldl_get_of_key_ne mid _ h hmid]
    exact alistGet_set_self _ _ _
  refine ⟨?_, ?_, ?_, ?_⟩
  · unfold getApiMessageId
    rw [hkey]
    simp [hp]
  · unfold getChatwootMessageId
    cases hfind : (runCache (pre ++ CacheOp.store h p conv inbox prov integ :: mid)).find?
        (fun kv => kv.2.apiMessageId == p) with
    | none =>
      exfalso
      have hmem := mem_of_alistGet hkey
      have := List.find?_eq_none.mp hfind _ hmem
      simp at this
    | some kv =>
      have hkvmem : kv ∈ runCache (pre ++ CacheOp.store h p conv inbox prov integ :: mid) :=
        List.mem_of_find?_eq_some hfind
      have hpred := List.find?_some hfind
      have hapi : kv.2.apiMessageId = p := by simpa using hpred
      show some kv.1 = some h
      rw [huniq kv hkvmem hapi]
  · unfold getApiMessageId removeMessageIdMapping
    rw [alistGet_delete_self]
  · unfold getChatwootMessageId removeMessageIdMapping
    cases hfind : (alistDelete
        (runCache (pre ++ CacheOp.store h p conv inbox prov integ :: mid)) h).find?
        (fun kv => kv.2.apiMessageId == p) with
    | none => rfl
    | some kv =>
      exfalso
      have hkvmem := List.mem_of_find?_eq_some hfind
      have hpred := List.find?_some hfind
      have hapi : kv.2.apiMessageId = p := by simpa using hpred
      obtain ⟨hmem', hne⟩ := mem_alistDelete_elim hkvmem
      exact hne (huniq kv hmem' hapi)

/-- Witness for the amended C2 theorem at a concrete trace. -/
theorem messageIdMapping_roundtrip_witness :
    getApiMessageId (runCache ([] ++ CacheOp.store "42" "ABC" none none none none :: []))
      "42" = some "ABC" ∧
    getChatwootMessageId (runCache ([] ++ CacheOp.store "42" "ABC" none none none none :: []))
      "ABC" = some "42" ∧
    getApiMessageId
        (removeMessageIdMapping
          (runCache ([] ++ CacheOp.store "42" "ABC" none none none none :: [])) "42") "42"
      = none ∧
    getChatwootMessageId
        (removeMessageIdMapping
          (runCache ([] ++ CacheOp.store "42" "ABC" none none none none :: [])) "42") "ABC"
      = none :=
  messageIdMapping_roundtrip [] [] "42" "ABC" none none none none
    (by decide) (by simp) (by decide)

/-- C3: for each (recipient, kind), add followed by consume is net zero on
the counts of either credit map; consume alone returns false when no
counter exists for the pair; consumeOutgoingTicketChatwoot alone returns
true (the sentinel) when no counter exists.  The net-zero parts carry the
hypothesis that the recipient's counters are non-negative, which every
reachable ledger state satisfies. -/
theorem ticket_add_consume_net_zero (m : TicketMap) (p k : String)
    (hnn : ∀ k', 0 ≤ ticketCount m p k') :
    (∀ p' k', ticketCount (consumeOutgoingTicket (addOutgoingTicket m p k) p k).2 p' k'
        = ticketCount m p' k') ∧
    (∀ p' k',
        ticketCount (consumeOutgoingTicketChatwoot (addOutgoingTicketChatwoot m p k) p k).2 p' k'
        = ticketCount m p' k') ∧
    (ticketCount m p k = 0 → (consumeOutgoingTicket m p k).1 = false) ∧
    (ticketCount m p k = 0 → (consumeOutgoingTicketChatwoot m p k).1 = true) := by
  refine ⟨ticketCount_add_consume m p k hnn, ?_, ?_, ?_⟩
  · intro p' k'
    rw [addChatwoot_eq, consumeChatwoot_eq]
    exact ticketCount_add_consume m p k hnn p' k'
  · intro h0
    rw [consume_nonpos m p k (by rw [h0]; simp)]
  · intro h0
    rw [consumeChatwoot_eq, consume_nonpos m p k (by rw [h0]; simp)]
    rfl

/-- Witness for the C3 theorem at concrete inputs (the empty ledger). -/
theorem ticket_add_consume_net_zero_witness :
    ticketCount (consumeOutgoingTicket (addOutgoingTicket [] "r" "text") "r" "text").2
        "r" "text" = ticketCount [] "r" "text" ∧
    (consumeOutgoingTicket [] "r" "text").1 = false ∧
    (consumeOutgoingTicketChatwoot [] "r" "text").1 = true := by
  have h := ticket_add_consume_net_zero [] "r" "text"
    (fun k' => by simp [ticketCount, alistGet])
  exact ⟨h.1 "r" "text", h.2.2.1 (by simp [ticketCount, alistGet]),
    h.2.2.2 (by simp [ticketCount, alistGet])⟩

/-- C4, counterexample to the claim as stated: firing the eviction task on
a state with a non-empty helpdesk echo map leaves that map untouched (its
clear() call is commented out in the source), so not all three structures
are empty afterwards. -/
theorem cleanup_keeps_helpdesk_map_cex :
    (cleanupOldTicketsFire
        { messageTickets := [("p", [("text", 1)])],
          messageTicketsChatwoot := [("q", [("image", 2)])],
          messageIdCache := [("42",
            { apiMessageId := "A", conversationId := none, inboxId := none,
              provider := none, integrationId := none })] }).messageTicketsChatwoot
      = [("q", [("image", 2)])] ∧
    ([("q", [("image", (2:Int))])] : TicketMap) ≠ [] := by
  decide

/-- C4 (amended): every firing of the 5-hour eviction task empties the
message-id mapping cache and the provider echo map (messageTickets), and
leaves the helpdesk echo map (messageTicketsChatwoot) unchanged. -/
theorem cleanup_wipes_provider_and_cache (s : LedgerState) :
    (cleanupOldTicketsFire s).messageTickets = [] ∧
    (cleanupOldTicketsFire s).messageIdCache = [] ∧
    (cleanupOldTicketsFire s).messageTicketsChatwoot = s.messageTicketsChatwoot ∧
    cleanupIntervalMs = 5 * 60 * 60 * 1000 :=
  ⟨rfl, rfl, rfl, by decide⟩

/-- C5, counterexample to the claim as stated: "11999998888" with default
country BR starts with the US country code "1", so the country-code scan
fires before the default country is applied and the result is
"+11999998888", not "+5511999998888". -/
theorem normalizeToE164_br_example_cex :
    normalizeToE164 "11999998888" "BR" = some "+11999998888" ∧
    (some "+11999998888" : Option String) ≠ some "+5511999998888" := by
  decide

/-- C5 (amended): the boundary examples as the code computes them:
normalizeToE164("11999998888","BR") = "+11999998888" (the US code "1"
matches first); the other two examples hold as the spec states them. -/
theorem normalizeToE164_boundary_examples :
    normalizeToE164 "11999998888" "BR" = some "+11999998888" ∧
    normalizeToE164 "+14155550000" "BR" = some "+14155550000" ∧
    normalizeToE164 "0014155550000" "BR" = some "+14155550000" := by
  decide

/-- C6, counterexample to the claim as stated: after add(p,a), add(p,b),
consume(p,a) the entry for kind a remains stored with counter 0 (only the
whole recipient is collapsed, and only when всех kinds are zero). -/
theorem ticket_zero_entry_persists_cex :
    alistGet (runTickets [TicketOp.add "p" "a", TicketOp.add "p" "b",
        TicketOp.consume "p" "a"]) "p" = some [("a", (0:Int)), ("b", 1)] ∧
    alistGet [("a", (0:Int)), ("b", (1:Int))] "a" = some 0 := by
  decide

/-- C6 (amended): in every ledger state reachable by add/consume on either
credit map, every stored counter is non-negative and every present
recipient has at least one strictly positive kind (the recipient key is
removed when a consume leaves all its kinds at zero); an individual
(recipient, kind) entry at zero may remain while another kind of the same
recipient is positive. -/
theorem ticket_ledger_invariant (ops : List TicketOp) :
    (∀ p obj k c, alistGet (runTickets ops) p = some obj →
      alistGet obj k = some c → 0 ≤ c) ∧
    (∀ p obj, alistGet (runTickets ops) p = some obj →
      ∃ k c, alistGet obj k = some c ∧ 0 < c) ∧
    (∀ p obj k c, alistGet (runTicketsChatwoot ops) p = some obj →
      alistGet obj k = some c → 0 ≤ c) ∧
    (∀ p obj, alistGet (runTicketsChatwoot ops) p = some obj →
      ∃ k c, alistGet obj k = some c ∧ 0 < c) := by
  have hinv := ledgerInv_runTickets ops
  have hnn : ∀ p obj k c, alistGet (runTickets ops) p = some obj →
      alistGet obj k = some c → 0 ≤ c :=
    fun p obj k c hg hk => (hinv.2 p obj hg).2.1 k c hk
  have hex : ∀ p obj, alistGet (runTickets ops) p = some obj →
      ∃ k c, alistGet obj k = some c ∧ 0 < c := by
    intro p obj hg
    obtain ⟨⟨k₀, c₀⟩, hmem, hpos⟩ := (hinv.2 p obj hg).2.2
    exact ⟨k₀, c₀, alistGet_of_mem_nodup hmem (hinv.2 p obj hg).1, hpos⟩
  refine ⟨hnn, hex, ?_, ?_⟩
  · rw [runTicketsChatwoot_eq]
    exact hnn
  · rw [runTicketsChatwoot_eq]
    exact hex

/-- Witness for the C6 theorem at a concrete reachable state. -/
theorem ticket_ledger_invariant_witness :
    (0:Int) ≤ 1 ∧ ∃ k c, alistGet ([("text", (1:Int))] : TicketObj) k = some c ∧ 0 < c := by
  have h := ticket_ledger_invariant [TicketOp.add "r" "text"]
  exact ⟨h.1 "r" [("text", 1)] "text" 1 (by decide) (by decide),
    h.2.1 "r" [("text", 1)] (by decide)⟩

/-- C7, counterexample to the claim as stated: the reachable cache after
store("1","P"), store("2","P") associates the single provider id "P" with
two distinct helpdesk ids at once. -/
theorem mapping_cache_not_injective_cex :
    ("1", ({ apiMessageId := "P", conversationId := none, inboxId := none,
             provider := none, integrationId := none } : CacheEntry))
      ∈ runCache [CacheOp.store "1" "P" none none none none,
          CacheOp.store "2" "P" none none none none] ∧
    ("2", ({ apiMessageId := "P", conversationId := none, inboxId := none,
             provider := none, integrationId := none } : CacheEntry))
      ∈ runCache [CacheOp.store "1" "P" none none none none,
          CacheOp.store "2" "P" none none none none] ∧
    ("1" : String) ≠ "2" := by
  decide

/-- C7 (amended): in every reachable cache state the helpdesk-id keys are
pairwise distinct, so each helpdesk message id is associated with at most
one provider message id; the converse direction does not hold (a provider
id may be shared by several helpdesk ids, the reverse scan returning the
first in insertion order). -/
theorem mapping_cache_functional (ops : List CacheOp) :
    (alistKeys (runCache ops)).Nodup ∧
    ∀ h e e', (h, e) ∈ runCache ops → (h, e') ∈ runCache ops → e = e' := by
  have hnd := runCache_nodup ops
  refine ⟨hnd, fun h e e' he he' => ?_⟩
  have h1 := alistGet_of_mem_nodup he hnd
  have h2 := alistGet_of_mem_nodup he' hnd
  rw [h1] at h2
  exact Option.some.inj h2

/-- Witness for the amended C7 theorem at a concrete reachable state. -/
theorem mapping_cache_functional_witness :
    (alistKeys (runCache [CacheOp.store "1" "P" none none none none])).Nodup ∧
    ({ apiMessageId := "P", conversationId := none, inboxId := none,
        provider := none, integrationId := none } : CacheEntry)
      = { apiMessageId := "P", conversationId := none, inboxId := none,
          provider := none, integrationId := none } :=
  ⟨(mapping_cache_functional [CacheOp.store "1" "P" none none none none]).1,
    (mapping_cache_functional [CacheOp.store "1" "P" none none none none]).2
      "1" _ _ (by decide) (by decide)⟩

/-- C8: on a Z-API group event (isGroup set, groups not ignored) the
contact identifier is the payload phone verbatim (never normalized to
E.164, with the chat-name fallback only when the phone is absent); and for
any identifier ending in "@g.us" or "-group", the strict E.164 test fails,
so the contact-creation payload carries no phone_number. -/
theorem group_identifier_skips_e164 (body : ZapiBody) (country nm ph : String)
    (hgroup : body.isGroup = true) :
    zapiExtractPhone (extractZapiData body false country)
      = some (jsOr body.phone (jsOr body.chatName "Grupo sem nome")) ∧
    (body.phone ≠ "" →
      zapiExtractPhone (extractZapiData body false country) = some body.phone) ∧
    ((∃ t, ph = t ++ "@g.us") ∨ (∃ t, ph = t ++ "-group") →
      isValidE164 ph = false ∧
      ∀ cd, createContactData ph "" nm "" "" = Except.ok cd → cd.phone_number = none) := by
  have h1 : zapiExtractPhone (extractZapiData body false country)
      = some (jsOr body.phone (jsOr body.chatName "Grupo sem nome")) := by
    unfold extractZapiData
    simp [hgroup, zapiExtractPhone]
  refine ⟨h1, ?_, ?_⟩
  · intro hph
    rw [h1]
    simp [jsOr, hph]
  · intro hsuf
    have hfalse : isValidE164 ph = false := by
      rcases hsuf with ⟨t, rfl⟩ | ⟨t, rfl⟩
      · exact isValidE164_gus t
      · exact isValidE164_zapi_group t
    refine ⟨hfalse, ?_⟩
    intro cd hcd
    by_cases hem : ph = ""
    · subst hem
      simp [createContactData] at hcd
    · have hok : createContactData ph "" nm "" ""
          = .ok { name := jsOr nm ("Contato " ++ ph), identifier := ph,
                  phone_number := none } := by
        unfold createContactData
        simp [hem, hfalse]
      rw [hok] at hcd
      injection hcd with hcd
      rw [← hcd]

/-- Witness for the C8 theorem at a concrete Z-API group payload. -/
theorem group_identifier_skips_e164_witness :
    zapiExtractPhone (extractZapiData
        { phone := "120363407124580783-group", fromMe := false, fromApi := false,
          textMessage := "hi", isGroup := true, photo := "", senderPhoto := "",
          status := "RECEIVED", messageId := "M1", referenceMessageId := "",
          isEdit := false, editMessageId := "", chatName := "Grupo Teste",
          senderName := "Alice", image := none, audio := none, document := none,
          video := none } false "BR") = some "120363407124580783-group" ∧
    isValidE164 "120363407124580783-group" = false ∧
    ({ name := "Grupo Teste", identifier := "120363407124580783-group",
       phone_number := none } : ContactData).phone_number = none := by
  have h := group_identifier_skips_e164
    { phone := "120363407124580783-group", fromMe := false, fromApi := false,
      textMessage := "hi", isGroup := true, photo := "", senderPhoto := "",
      status := "RECEIVED", messageId := "M1", referenceMessageId := "",
      isEdit := false, editMessageId := "", chatName := "Grupo Teste",
      senderName := "Alice", image := none, audio := none, document := none,
      video := none } "BR" "Grupo Teste" "120363407124580783-group" rfl
  have hsuf : (∃ t, "120363407124580783-group" = t ++ "@g.us")
      ∨ (∃ t, "120363407124580783-group" = t ++ "-group") :=
    Or.inr ⟨"120363407124580783", by decide⟩
  exact ⟨h.2.1 (by decide), (h.2.2 hsuf).1,
    (h.2.2 hsuf).2 { name := "Grupo Teste",
                     identifier := "120363407124580783-group",
                     phone_number := none } (by decide)⟩

/-- C9: Z-API deletion emits DELETE /messages with messageId, phone and
owner, where phone is the recipient verbatim for group identifiers
(suffix "@g.us" or "-group") and the recipient's digits otherwise, and a
missing recipient is an error; UAZAPI (POST /message/delete) and Wuzapi
(POST /chat/delete) deletion proceeds with the message id alone. -/
theorem deleteMessage_dialects (messageId recipient : String) (ownerOpt : Option Bool) :
    deleteViaZAPI messageId none ownerOpt
      = Except.error "Recipient (phone ou id do grupo) e obrigatorio para deletar mensagem via Z-API" ∧
    deleteViaZAPI messageId (some "") ownerOpt
      = Except.error "Recipient (phone ou id do grupo) e obrigatorio para deletar mensagem via Z-API" ∧
    (recipient ≠ "" → strEndsWith recipient "@g.us" = true →
      deleteViaZAPI messageId (some recipient) ownerOpt
        = Except.ok (DeleteRequest.zapi messageId recipient (ownerOpt != some false))) ∧
    (recipient ≠ "" → strEndsWith recipient "@g.us" = false →
      strEndsWith recipient "-group" = true →
      deleteViaZAPI messageId (some recipient) ownerOpt
        = Except.ok (DeleteRequest.zapi messageId recipient (ownerOpt != some false))) ∧
    (recipient ≠ "" → strEndsWith recipient "@g.us" = false →
      strEndsWith recipient "-group" = false → extractDigits recipient ≠ "" →
      deleteViaZAPI messageId (some recipient) ownerOpt
        = Except.ok (DeleteRequest.zapi messageId (extractDigits recipient)
            (ownerOpt != some false))) ∧
    deleteViaUAZAPI messageId = DeleteRequest.uazapi messageId ∧
    deleteViaWuzapi messageId = DeleteRequest.wuzapi messageId ∧
    deleteRequestRoute (DeleteRequest.zapi messageId recipient (ownerOpt != some false))
      = ("DELETE", "/messages") ∧
    deleteRequestRoute (DeleteRequest.uazapi messageId) = ("POST", "/message/delete") ∧
    deleteRequestRoute (DeleteRequest.wuzapi messageId) = ("POST", "/chat/delete") := by
  refine ⟨rfl, rfl, ?_, ?_, ?_, rfl, rfl, rfl, rfl, rfl⟩
  · intro h1 h2
    unfold deleteViaZAPI
    simp [h1, h2]
  · intro h1 h2 h3
    unfold deleteViaZAPI
    simp [h1, h2, h3]
  · intro h1 h2 h3 h4
    unfold deleteViaZAPI
    simp [h1, h2, h3, h4]

/-- Witness for the C9 theorem at concrete recipients exercising the group,
Z-API-group and digits-only branches. -/
theorem deleteMessage_dialects_witness :
    deleteViaZAPI "M" (some "123@g.us") none
      = Except.ok (DeleteRequest.zapi "M" "123@g.us" true) ∧
    deleteViaZAPI "M" (some "123-group") none
      = Except.ok (DeleteRequest.zapi "M" "123-group" true) ∧
    deleteViaZAPI "M" (some "+55 11 99999-8888") (some true)
      = Except.ok (DeleteRequest.zapi "M" "5511999998888" true) ∧
    deleteViaZAPI "M" none none
      = Except.error "Recipient (phone ou id do grupo) e obrigatorio para deletar mensagem via Z-API" ∧
    deleteViaUAZAPI "M" = DeleteRequest.uazapi "M" ∧
    deleteViaWuzapi "M" = DeleteRequest.wuzapi "M" := by
  have hgus := (deleteMessage_dialects "M" "123@g.us" none).2.2.1 (by decide) (by decide)
  have hgrp := (deleteMessage_dialects "M" "123-group" none).2.2.2.1
    (by decide) (by decide) (by decide)
  have hdig := (deleteMessage_dialects "M" "+55 11 99999-8888" (some true)).2.2.2.2.1
    (by decide) (by decide) (by decide) (by decide)
  have herr := (deleteMessage_dialects "M" "x" none).1
  have hu := (deleteMessage_dialects "M" "x" none).2.2.2.2.2.1
  have hw := (deleteMessage_dialects "M" "x" none).2.2.2.2.2.2.1
  exact ⟨by simpa using hgus, by simpa using hgrp, by simpa using hdig, herr, hu, hw⟩

/-- C10: the message kind used for credit bookkeeping and sending is
determined solely by the first attachment's file_type (audio, image and
video map to themselves, file maps to document) and is text in every other
case, including an empty attachment list and an unrecognized first
file_type; the textual content and the attachments after the first never
influence the kind. -/
theorem getMessageType_first_attachment (c c' : String)
    (atts : List ChatwootAttachment) :
    getMessageType c [] = "text" ∧
    (∀ a rest rest', getMessageType c (a :: rest) = getMessageType c' (a :: rest')) ∧
    getMessageType c atts = specMessageKind (atts.head?.map (fun a => a.file_type)) := by
  refine ⟨rfl, fun a rest rest' => rfl, ?_⟩
  cases atts with
  | nil => rfl
  | cons a rest => rfl

end Wootrico
